import Mathlib

/-!
Verification development for the streaming reconciliation core of the
FB-Marketplace-Deal-Finder frontend (`frontend/app/page.tsx` and the evolved
version of the same file, plus `components/results/ResultsTable.tsx` and
`components/results/SearchLoadingView.tsx`).

The development shallowly embeds:

* the incremental UTF-8 text decoder used by the read loop
  (`new TextDecoder()` with `decode(value, { stream: !done })`), modelled
  byte-for-byte after the WHATWG "UTF-8 decode" state machine (replacement
  mode, leading-BOM stripping);
* the chunk-buffering line splitter of `parseSSEStream`;
* the event dispatcher `dispatchSSEEvent` together with the state handlers
  of the `Home` component, folded into an explicit session-state record;
* `cancelSearch` with explicit counters standing in for its observable
  side effects (backend cancel POST, `reader.cancel()`, `releaseLock()`,
  `AbortController.abort()`);
* the debug telemetry handlers (`onDebugEbayQueryStart` / `...Generated` /
  `...Finished` / `onDebugProductRecon` and the telemetry part of
  `onListingResult`);
* the pending-view filter of `SearchLoadingView` and the display sort of
  `ResultsTable` (`getListingFilterInfo`, `FILTERED_RECENCY_OFFSET`,
  `sortedDisplayListings`).

Modelling conventions:

* JSON numbers are modelled as integers (`Int`); no claim in scope depends
  on fractional values.
* `JSON.parse` itself is a platform built-in, not repository code; the
  stream layer is therefore parameterised by a predicate `parses` meaning
  "`dispatchSSEEvent` returned without throwing on this payload", and the
  session layer by `parse : payload → Option JValue` (with `none` standing
  for a thrown `JSON.parse` error, the only way `dispatchSSEEvent` throws).
* `Date.now()` is passed in explicitly as a `now : Int` argument.
-/

/-! ## JSON values

A JavaScript value as produced by `JSON.parse`.  The array and object
spines are their own inductives (rather than `List`) so that decidable
equality can be derived; `JArr.toList` / `JObj.ofList` convert at the
boundary. -/

mutual
inductive JValue where
  | null
  | bool (b : Bool)
  | num (n : Int)
  | str (s : String)
  | arr (xs : JArr)
  | obj (fields : JObj)
deriving DecidableEq

inductive JArr where
  | nil
  | cons (hd : JValue) (tl : JArr)
deriving DecidableEq

inductive JObj where
  | nil
  | cons (key : String) (val : JValue) (tl : JObj)
deriving DecidableEq
end

def JObj.ofList : List (String × JValue) → JObj
  | [] => .nil
  | (k, v) :: rest => .cons k v (JObj.ofList rest)

def JArr.ofList : List JValue → JArr
  | [] => .nil
  | v :: rest => .cons v (JArr.ofList rest)

def JArr.toList : JArr → List JValue
  | .nil => []
  | .cons v rest => v :: rest.toList

/-- Object literal helper (ergonomic constructor for payloads). -/
def jo (fs : List (String × JValue)) : JValue := .obj (JObj.ofList fs)

/-- Array literal helper. -/
def ja (xs : List JValue) : JValue := .arr (JArr.ofList xs)

/-- Property lookup on an object spine; duplicate keys resolve to the last
occurrence, as `JSON.parse` does. -/
def JObj.find : JObj → String → Option JValue
  | .nil, _ => none
  | .cons k v tl, key =>
      match tl.find key with
      | some v' => some v'
      | none => if k = key then some v else none

/-- JavaScript member access `data.k`: `undefined` (here `none`) when the
value is not an object or lacks the property. -/
def getField (v : JValue) (k : String) : Option JValue :=
  match v with
  | .obj fs => fs.find k
  | _ => none

/-- JavaScript truthiness of a JSON value. -/
def jTruthy : JValue → Bool
  | .null => false
  | .bool b => b
  | .num n => n != 0
  | .str s => s ≠ ""
  | .arr _ => true
  | .obj _ => true

/-- Truthiness of a member access (`undefined` is falsy). -/
def fieldTruthy (v : JValue) (k : String) : Bool :=
  match getField v k with
  | some x => jTruthy x
  | none => false

/-- JavaScript loose `x != null`: present and neither `null` nor `undefined`. -/
def fieldNonNull (v : JValue) (k : String) : Bool :=
  match getField v k with
  | some x => x ≠ JValue.null
  | none => false

/-- `typeof data.k === "number"`. -/
def fieldNum (v : JValue) (k : String) : Option Int :=
  match getField v k with
  | some (.num n) => some n
  | _ => none

/-- `typeof data.k === "string"`. -/
def fieldStr (v : JValue) (k : String) : Option String :=
  match getField v k with
  | some (.str s) => some s
  | _ => none

/-- `Array.isArray(data.k)` (returning the elements). -/
def fieldArr (v : JValue) (k : String) : Option (List JValue) :=
  match getField v k with
  | some (.arr xs) => some xs.toList
  | _ => none

/-- JavaScript `x ?? d` applied to a member access: the default replaces
`undefined` and `null` only. -/
def fieldCoalesce (v : JValue) (k : String) (d : JValue) : JValue :=
  match getField v k with
  | some .null => d
  | some x => x
  | none => d

/-- JavaScript `x || d` applied to a member access. -/
def fieldOrElse (v : JValue) (k : String) (d : JValue) : JValue :=
  match getField v k with
  | some x => if jTruthy x then x else d
  | none => d

/-- The `data.type` discriminator when it is a string, as compared by the
`===` chain of `dispatchSSEEvent` (a non-string `type` matches no branch). -/
def typeField (v : JValue) : Option String := fieldStr v "type"

/-! ## Incremental UTF-8 decoding

`parseSSEStream` creates one `TextDecoder` per stream and calls
`decoder.decode(value, { stream: !done })` on each read.  This is the
WHATWG UTF-8 decoder in replacement (non-fatal) mode with BOM stripping.
We embed it as a byte-at-a-time state machine producing Unicode code
points (`Nat`), which makes the chunk-concatenation behaviour a fold. -/

structure Utf8State where
  codepoint : Nat
  bytesSeen : Nat
  bytesNeeded : Nat
  lowerBoundary : Nat
  upperBoundary : Nat
  /-- Has the decoder already emitted (or decided not to strip) a first
  code point?  `TextDecoder` with default options removes one leading
  U+FEFF from the whole stream. -/
  bomHandled : Bool
deriving DecidableEq, Repr

def Utf8State.start : Utf8State :=
  { codepoint := 0, bytesSeen := 0, bytesNeeded := 0
    lowerBoundary := 0x80, upperBoundary := 0xBF, bomHandled := false }

/-- Strip a single leading U+FEFF from the stream of emitted code points. -/
def bomFilter (handled : Bool) (cp : Nat) : Bool × List Nat :=
  if handled then (true, [cp])
  else if cp = 0xFEFF then (true, []) else (true, [cp])

def bomFilterAll (handled : Bool) : List Nat → Bool × List Nat
  | [] => (handled, [])
  | cp :: rest =>
      let (h1, o1) := bomFilter handled cp
      let (h2, o2) := bomFilterAll h1 rest
      (h2, o1 ++ o2)

/-- WHATWG UTF-8 decoder: handle one byte in the "bytes needed = 0" state.
Returns the new multi-byte bookkeeping (without the BOM flag) and the raw
emitted code points. -/
def utf8StartByte (b : Nat) : Utf8State → Utf8State × List Nat := fun s =>
  if b ≤ 0x7F then
    ({ s with codepoint := 0, bytesSeen := 0, bytesNeeded := 0
              lowerBoundary := 0x80, upperBoundary := 0xBF }, [b])
  else if 0xC2 ≤ b ∧ b ≤ 0xDF then
    ({ s with codepoint := b % 32, bytesSeen := 0, bytesNeeded := 1
              lowerBoundary := 0x80, upperBoundary := 0xBF }, [])
  else if 0xE0 ≤ b ∧ b ≤ 0xEF then
    ({ s with codepoint := b % 16, bytesSeen := 0, bytesNeeded := 2
              lowerBoundary := if b = 0xE0 then 0xA0 else 0x80
              upperBoundary := if b = 0xED then 0x9F else 0xBF }, [])
  else if 0xF0 ≤ b ∧ b ≤ 0xF4 then
    ({ s with codepoint := b % 8, bytesSeen := 0, bytesNeeded := 3
              lowerBoundary := if b = 0xF0 then 0x90 else 0x80
              upperBoundary := if b = 0xF4 then 0x8F else 0xBF }, [])
  else
    ({ s with codepoint := 0, bytesSeen := 0, bytesNeeded := 0
              lowerBoundary := 0x80, upperBoundary := 0xBF }, [0xFFFD])

/-- WHATWG UTF-8 decoder: one byte, including the continuation state and
the "restore byte to stream" error path, followed by BOM filtering. -/
def utf8DecodeByte (s : Utf8State) (b : Nat) : Utf8State × List Nat :=
  let (s', raw) :=
    if s.bytesNeeded = 0 then
      utf8StartByte b s
    else if s.lowerBoundary ≤ b ∧ b ≤ s.upperBoundary then
      let cp := s.codepoint * 64 + b % 64
      let seen := s.bytesSeen + 1
      if seen = s.bytesNeeded then
        ({ s with codepoint := 0, bytesSeen := 0, bytesNeeded := 0
                  lowerBoundary := 0x80, upperBoundary := 0xBF }, [cp])
      else
        ({ s with codepoint := cp, bytesSeen := seen
                  lowerBoundary := 0x80, upperBoundary := 0xBF }, [])
    else
      -- error: emit U+FFFD and reprocess the byte from the initial state
      let (s0, out0) := utf8StartByte b
        { s with codepoint := 0, bytesSeen := 0, bytesNeeded := 0
                 lowerBoundary := 0x80, upperBoundary := 0xBF }
      (s0, 0xFFFD :: out0)
  let (h, out) := bomFilterAll s.bomHandled raw
  ({ s' with bomHandled := h }, out)

def utf8DecodeChunk (s : Utf8State) : List Nat → Utf8State × List Nat
  | [] => (s, [])
  | b :: bs =>
      let (s1, o1) := utf8DecodeByte s b
      let (s2, o2) := utf8DecodeChunk s1 bs
      (s2, o1 ++ o2)

/-- The flush performed by `decoder.decode(undefined, { stream: false })`
at end of stream: a pending incomplete sequence becomes one U+FFFD. -/
def utf8Flush (s : Utf8State) : List Nat :=
  if s.bytesNeeded = 0 then [] else
    (bomFilterAll s.bomHandled [0xFFFD]).2

theorem utf8DecodeChunk_append (a : List Nat) :
    ∀ (s : Utf8State) (b : List Nat),
      utf8DecodeChunk s (a ++ b) =
        ((utf8DecodeChunk (utf8DecodeChunk s a).1 b).1,
          (utf8DecodeChunk s a).2 ++ (utf8DecodeChunk (utf8DecodeChunk s a).1 b).2) := by
  induction a with
  | nil => intro s b; simp [utf8DecodeChunk]
  | cons x xs ih =>
      intro s b
      simp only [List.cons_append, utf8DecodeChunk, List.append_eq]
      rw [ih]
      simp [List.append_assoc]

/-! ## Line splitting

`parseSSEStream` accumulates decoded text in `buffer`, and on each
iteration runs `buffer.split("\n")`; all elements but the last are the
complete lines, the popped last element is the retained fragment.
`splitLines` returns that pair directly.  Text is a list of code points;
`10` is `"\n"`. -/

def nlCode : Nat := 10

def splitLines : List Nat → List (List Nat) × List Nat
  | [] => ([], [])
  | c :: rest =>
      let r := splitLines rest
      if c = nlCode then ([] :: r.1, r.2)
      else
        match r.1 with
        | [] => ([], c :: r.2)
        | l :: ls => ((c :: l) :: ls, r.2)

/-- `buffer.includes("\n")`. -/
def hasNl (t : List Nat) : Bool := t.any (· = nlCode)

theorem splitLines_no_nl {t : List Nat} (h : hasNl t = false) :
    splitLines t = ([], t) := by
  induction t with
  | nil => rfl
  | cons c rest ih =>
      simp only [hasNl, List.any_cons, Bool.or_eq_false_iff] at h
      obtain ⟨h1, h2⟩ := h
      simp only [splitLines, ih h2]
      simp only [decide_eq_false_iff_not] at h1
      simp [h1]

theorem splitLines_fragment_no_nl (t : List Nat) :
    hasNl (splitLines t).2 = false := by
  induction t with
  | nil => simp [splitLines, hasNl]
  | cons c rest ih =>
      simp only [splitLines]
      by_cases hc : c = nlCode
      · simp [hc, ih]
      · simp only [hc, if_false]
        match hr : (splitLines rest).1 with
        | [] =>
            simp only [hasNl, List.any_cons, Bool.or_eq_false_iff]
            exact ⟨by simp [hc], ih⟩
        | l :: ls => simpa using ih

theorem splitLines_lines_nil_iff (t : List Nat) :
    (splitLines t).1 = [] ↔ hasNl t = false := by
  induction t with
  | nil => simp [splitLines, hasNl]
  | cons c rest ih =>
      rcases hsr : splitLines rest with ⟨lr, fr⟩
      rw [hsr] at ih
      simp only [splitLines, hsr]
      by_cases hc : c = nlCode
      · simp [hc, hasNl]
      · cases lr with
        | nil =>
            have h2 : hasNl rest = false := ih.mp rfl
            have h3 : hasNl (c :: rest) = false := by
              simp only [hasNl, List.any_cons, Bool.or_eq_false_iff]
              exact ⟨by simp [hc], h2⟩
            simp [hc, h3]
        | cons l ls =>
            have hrest : hasNl rest = true := by
              by_contra h
              simp only [Bool.not_eq_true] at h
              exact absurd (ih.mpr h) (by simp)
            have h3 : hasNl (c :: rest) = true := by
              simp only [hasNl, List.any_cons, Bool.or_eq_true]
              exact Or.inr hrest
            simp [hc, h3]

/-- How `splitLines` combines across a concatenation: the fragment of the
left part is glued onto the first line (or the fragment) of the right. -/
def glueSplit (px py : List (List Nat) × List Nat) : List (List Nat) × List Nat :=
  match py.1 with
  | [] => (px.1, px.2 ++ py.2)
  | l :: ls => (px.1 ++ (px.2 ++ l) :: ls, py.2)

theorem splitLines_append (x : List Nat) :
    ∀ y : List Nat, splitLines (x ++ y) = glueSplit (splitLines x) (splitLines y) := by
  induction x with
  | nil =>
      intro y
      rcases hsy : splitLines y with ⟨ly, fy⟩
      rw [List.nil_append, hsy]
      cases ly with
      | nil => simp [glueSplit, splitLines]
      | cons l ls => simp [glueSplit, splitLines]
  | cons c xs ih =>
      intro y
      rcases hsx : splitLines xs with ⟨lx, fx⟩
      rcases hsy : splitLines y with ⟨ly, fy⟩
      have ihy := ih y
      rw [hsx, hsy] at ihy
      simp only [List.cons_append, splitLines, List.append_eq]
      rw [ihy, hsx]
      by_cases hc : c = nlCode
      · cases ly <;> cases lx <;> simp [glueSplit, hc]
      · cases ly <;> cases lx <;> simp [glueSplit, hc]

/-! ## The read loop of `parseSSEStream`

The loop body (identical in both versions of `page.tsx`):

* `buffer += decoder.decode(value, { stream: !done })`
* `if (!buffer.includes("\n") && !done) continue`
* `lines = buffer.split("\n"); buffer = done ? "" : lines.pop()`
* dispatch every line starting with `"data: "`, re-throwing parse errors
  (which aborts the whole loop)
* when `done`, additionally re-dispatch `buffer` with errors swallowed —
  but `buffer` has just been set to `""`, so that branch never fires.

`parses p = true` models "`dispatchSSEEvent(p, handlers)` did not throw". -/

/-- The code points of the `"data: "` marker. -/
def dataMarker : List Nat := [100, 97, 116, 97, 58, 32]

/-- `line.startsWith("data: ")`. -/
def isDataLine (l : List Nat) : Bool := dataMarker.isPrefixOf l

/-- `line.slice(6)`. -/
def payloadOf (l : List Nat) : List Nat := l.drop 6

/-- Dispatching a list of lines in order: every `"data: "` line's payload is
passed to `dispatchSSEEvent`; a throwing dispatch aborts the rest
(second component `true`). -/
def dispatchLines (parses : List Nat → Bool) : List (List Nat) → List (List Nat) × Bool
  | [] => ([], false)
  | l :: ls =>
      if isDataLine l then
        if parses (payloadOf l) then
          let r := dispatchLines parses ls
          (payloadOf l :: r.1, r.2)
        else ([payloadOf l], true)
      else dispatchLines parses ls

/-- The observable state of one run of the read loop: decoder state, text
buffer, the payloads passed to `dispatchSSEEvent` so far (in order), and
whether the loop was aborted by a thrown parse error. -/
structure SSEState where
  dec : Utf8State
  buffer : List Nat
  events : List (List Nat)
  aborted : Bool
deriving DecidableEq, Repr

def SSEState.start : SSEState := ⟨Utf8State.start, [], [], false⟩

/-- One non-final `reader.read()` delivering `chunk`. -/
def feedChunk (parses : List Nat → Bool) (st : SSEState) (chunk : List Nat) : SSEState :=
  if st.aborted then st
  else
    let dt := utf8DecodeChunk st.dec chunk
    let buf := st.buffer ++ dt.2
    if hasNl buf = false then { st with dec := dt.1, buffer := buf }
    else
      let sp := splitLines buf
      let r := dispatchLines parses sp.1
      { dec := dt.1, buffer := sp.2, events := st.events ++ r.1, aborted := r.2 }

/-- The final `reader.read()` resolving `{ done: true }`: flush the decoder,
split, set `buffer = ""`, run every split element (including the trailing
fragment) through the fatal dispatch loop, then the dead tolerant branch. -/
def finishStream (parses : List Nat → Bool) (st : SSEState) : SSEState :=
  if st.aborted then st
  else
    let t := utf8Flush st.dec
    let buf := st.buffer ++ t
    let sp := splitLines buf
    let buffer2 : List Nat := []
    let r := dispatchLines parses (sp.1 ++ [sp.2])
    if r.2 then { dec := st.dec, buffer := buffer2, events := st.events ++ r.1, aborted := true }
    else
      -- `if (buffer.startsWith("data: ")) try { dispatch } catch { ignore }`:
      -- unreachable, because `buffer2 = []`.
      let lateEvents := if isDataLine buffer2 && parses (payloadOf buffer2)
        then [payloadOf buffer2] else []
      { dec := st.dec, buffer := buffer2, events := st.events ++ r.1 ++ lateEvents
        aborted := false }

/-- The whole read loop: feed every delivered chunk, then the final read. -/
def parseSSEStream (parses : List Nat → Bool) (chunks : List (List Nat)) : SSEState :=
  finishStream parses (chunks.foldl (feedChunk parses) SSEState.start)

/-! ### Denotational characterisation -/

/-- The text the whole byte sequence decodes to (including the flush). -/
def decodeAllBytes (bs : List Nat) : List Nat :=
  (utf8DecodeChunk Utf8State.start bs).2 ++ utf8Flush (utf8DecodeChunk Utf8State.start bs).1

/-- Every element of `text.split("\n")`, the trailing fragment included. -/
def streamLines (bs : List Nat) : List (List Nat) :=
  (splitLines (decodeAllBytes bs)).1 ++ [(splitLines (decodeAllBytes bs)).2]

/-- The payloads carried by `"data: "` lines of the full stream. -/
def streamPayloads (bs : List Nat) : List (List Nat) :=
  ((streamLines bs).filter isDataLine).map payloadOf

def sseDenot (parses : List Nat → Bool) (bs : List Nat) : List (List Nat) × Bool :=
  dispatchLines parses (streamLines bs)

/-- Loop state after the partial input `P` has been delivered (and no abort
has occurred among its complete lines). -/
def midState (parses : List Nat → Bool) (P : List Nat) : SSEState :=
  let dt := utf8DecodeChunk Utf8State.start P
  let sp := splitLines dt.2
  let r := dispatchLines parses sp.1
  ⟨dt.1, sp.2, r.1, r.2⟩

def InvAt (parses : List Nat → Bool) (P : List Nat) (st : SSEState) : Prop :=
  if (midState parses P).aborted then
    st.aborted = true ∧ st.events = (midState parses P).events
  else st = midState parses P

theorem dispatchLines_append (parses : List Nat → Bool) (xs : List (List Nat)) :
    ∀ ys : List (List Nat),
      dispatchLines parses (xs ++ ys) =
        if (dispatchLines parses xs).2 then dispatchLines parses xs
        else ((dispatchLines parses xs).1 ++ (dispatchLines parses ys).1,
              (dispatchLines parses ys).2) := by
  induction xs with
  | nil => intro ys; simp [dispatchLines]
  | cons l ls ih =>
      intro ys
      simp only [List.cons_append, dispatchLines, List.append_eq]
      by_cases hd : isDataLine l
      · by_cases hp : parses (payloadOf l)
        · simp only [hd, hp, if_true]
          rw [ih ys]
          by_cases hab : (dispatchLines parses ls).2
          · simp [hab]
          · simp [hab]
        · simp [hd, hp]
      · simp only [hd, if_false]
        exact ih ys

/-- The no-newline `continue` branch is redundant: splitting a
newline-free buffer yields no complete lines. -/
theorem feedChunk_eq (parses : List Nat → Bool) (st : SSEState) (chunk : List Nat) :
    feedChunk parses st chunk =
      if st.aborted then st
      else
        let dt := utf8DecodeChunk st.dec chunk
        let sp := splitLines (st.buffer ++ dt.2)
        let r := dispatchLines parses sp.1
        ⟨dt.1, sp.2, st.events ++ r.1, r.2⟩ := by
  unfold feedChunk
  by_cases hab : st.aborted
  · simp [hab]
  · simp only [hab, if_false]
    by_cases h : hasNl (st.buffer ++ (utf8DecodeChunk st.dec chunk).2) = false
    · rw [if_pos h]
      have hs := splitLines_no_nl h
      simp [hs, dispatchLines]
    · rw [if_neg h]

theorem utf8Flush_no_nl (s : Utf8State) : hasNl (utf8Flush s) = false := by
  unfold utf8Flush
  by_cases h : s.bytesNeeded = 0
  · simp [h, hasNl]
  · simp only [h, if_false]
    cases hb : s.bomHandled <;> simp [bomFilterAll, bomFilter, hasNl, nlCode]

theorem feedChunk_invariant (parses : List Nat → Bool) (P c : List Nat) (st : SSEState)
    (h : InvAt parses P st) : InvAt parses (P ++ c) (feedChunk parses st c) := by
  rcases hdP : utf8DecodeChunk Utf8State.start P with ⟨dP, tP⟩
  rcases hsP : splitLines tP with ⟨lsP, frP⟩
  rcases hrP : dispatchLines parses lsP with ⟨esP, abP⟩
  have hmidP : midState parses P = ⟨dP, frP, esP, abP⟩ := by
    simp [midState, hdP, hsP, hrP]
  rcases hdc : utf8DecodeChunk dP c with ⟨dC, tC⟩
  have hdPc : utf8DecodeChunk Utf8State.start (P ++ c) = (dC, tP ++ tC) := by
    rw [utf8DecodeChunk_append, hdP]
    simp [hdc]
  rcases hsc : splitLines tC with ⟨ltc, ftc⟩
  have hsPc : splitLines (tP ++ tC) = glueSplit (lsP, frP) (ltc, ftc) := by
    rw [splitLines_append, hsP, hsc]
  have hfrP : splitLines frP = ([], frP) := by
    apply splitLines_no_nl
    have := splitLines_fragment_no_nl tP
    rwa [hsP] at this
  have hsfr : splitLines (frP ++ tC) = glueSplit ([], frP) (ltc, ftc) := by
    rw [splitLines_append, hfrP, hsc]
  cases habP : abP with
  | false =>
      -- before the chunk, the loop state is exactly `midState P`
      have hst : st = ⟨dP, frP, esP, false⟩ := by
        simp only [InvAt, hmidP, habP] at h
        simpa using h
      have hnew : feedChunk parses st c = midState parses (P ++ c) := by
        rw [feedChunk_eq, hst]
        simp only [midState, hdPc, hsPc]
        simp only [hdc]
        cases ltc with
        | nil =>
            simp [glueSplit, hsfr, hrP, habP, dispatchLines]
        | cons l ls =>
            simp only [glueSplit, List.nil_append, hsfr]
            rw [dispatchLines_append, hrP]
            simp [habP]
      rw [hnew]
      simp only [InvAt]
      by_cases hab2 : (midState parses (P ++ c)).aborted
      · simp [hab2]
      · simp [hab2]
  | true =>
      -- already aborted: the loop has exited, nothing more is processed
      simp only [InvAt, hmidP, habP, if_true, if_pos] at h
      have hfeed : feedChunk parses st c = st := by
        unfold feedChunk
        simp [h.1]
      have habPc : (midState parses (P ++ c)).aborted = true ∧
          (midState parses (P ++ c)).events = esP := by
        simp only [midState, hdPc, hsPc]
        cases ltc with
        | nil =>
            simp [glueSplit, hrP, habP]
        | cons l ls =>
            simp only [glueSplit, List.nil_append]
            rw [dispatchLines_append, hrP]
            simp [habP]
      simp only [InvAt, hfeed, habPc.1, if_true]
      exact ⟨h.1, h.2.trans habPc.2.symm⟩

theorem foldl_feedChunk_invariant (parses : List Nat → Bool) (chunks : List (List Nat)) :
    ∀ (P : List Nat) (st : SSEState), InvAt parses P st →
      InvAt parses (P ++ chunks.flatten) (chunks.foldl (feedChunk parses) st) := by
  induction chunks with
  | nil =>
      intro P st h
      simpa using h
  | cons c cs ih =>
      intro P st h
      have h1 := feedChunk_invariant parses P c st h
      have h2 := ih (P ++ c) _ h1
      simpa [List.append_assoc] using h2

theorem invAt_start (parses : List Nat → Bool) : InvAt parses [] SSEState.start := by
  simp [InvAt, midState, utf8DecodeChunk, splitLines, dispatchLines, SSEState.start]

/-- The read loop is chunk-transparent: its dispatched payloads and abort
flag depend only on the concatenation of the delivered bytes. -/
theorem parseSSEStream_denot (parses : List Nat → Bool) (chunks : List (List Nat)) :
    (parseSSEStream parses chunks).events = (sseDenot parses chunks.flatten).1 ∧
    (parseSSEStream parses chunks).aborted = (sseDenot parses chunks.flatten).2 := by
  have hinv := foldl_feedChunk_invariant parses chunks [] SSEState.start (invAt_start parses)
  rw [List.nil_append] at hinv
  set B := chunks.flatten with hB
  rcases hdB : utf8DecodeChunk Utf8State.start B with ⟨dB, tB⟩
  rcases hsB : splitLines tB with ⟨lsB, frB⟩
  rcases hrB : dispatchLines parses lsB with ⟨esB, abB⟩
  have hmidB : midState parses B = ⟨dB, frB, esB, abB⟩ := by
    simp [midState, hdB, hsB, hrB]
  have hfrB : splitLines frB = ([], frB) := by
    apply splitLines_no_nl
    have := splitLines_fragment_no_nl tB
    rwa [hsB] at this
  have hflush : splitLines (utf8Flush dB) = ([], utf8Flush dB) :=
    splitLines_no_nl (utf8Flush_no_nl dB)
  have hall : splitLines (decodeAllBytes B) = (lsB, frB ++ utf8Flush dB) := by
    unfold decodeAllBytes
    rw [hdB]
    rw [splitLines_append, hsB, hflush]
    simp [glueSplit]
  have hstream : streamLines B = lsB ++ [frB ++ utf8Flush dB] := by
    unfold streamLines
    rw [hall]
  have hdenot : sseDenot parses B =
      (if abB then (esB, true)
       else (esB ++ (dispatchLines parses [frB ++ utf8Flush dB]).1,
             (dispatchLines parses [frB ++ utf8Flush dB]).2)) := by
    unfold sseDenot
    rw [hstream, dispatchLines_append, hrB]
    cases abB <;> simp
  unfold parseSSEStream
  cases habB : abB with
  | false =>
      have hst : chunks.foldl (feedChunk parses) SSEState.start = ⟨dB, frB, esB, false⟩ := by
        simp only [InvAt, hmidB, habB] at hinv
        simpa using hinv
      rw [hst]
      unfold finishStream
      simp only
      rw [splitLines_append, hfrB, hflush]
      simp only [glueSplit, List.nil_append]
      rw [hdenot]
      have hnodata : isDataLine ([] : List Nat) = false := by decide
      rcases hfin : dispatchLines parses [frB ++ utf8Flush dB] with ⟨esF, abF⟩
      cases abF <;> simp [habB, hnodata, hfin]
  | true =>
      simp only [InvAt, hmidB, habB, if_true] at hinv
      rw [hdenot]
      unfold finishStream
      simp [hinv.1, hinv.2, habB]

theorem dispatchLines_aborted_iff (parses : List Nat → Bool) (ls : List (List Nat)) :
    (dispatchLines parses ls).2 = true ↔
      ∃ l ∈ ls, isDataLine l = true ∧ parses (payloadOf l) = false := by
  induction ls with
  | nil => simp [dispatchLines]
  | cons l rest ih =>
      simp only [dispatchLines]
      by_cases hd : isDataLine l
      · by_cases hp : parses (payloadOf l)
        · simp only [hd, hp, if_true]
          rw [List.exists_mem_cons_iff]
          simp [hp, ih]
        · simp [hd, hp]
      · simp only [Bool.not_eq_true] at hd
        simp only [hd, Bool.false_eq_true, if_false]
        rw [ih, List.exists_mem_cons_iff]
        simp [hd]

/-- Payloads dispatched by the decoded event stream, as `JValue`s:
`parse` stands for `JSON.parse` (`none` = the payload throws). -/
def sseDecodedEvents (parse : List Nat → Option JValue) (chunks : List (List Nat)) :
    List JValue :=
  ((parseSSEStream (fun p => (parse p).isSome) chunks).events).filterMap parse

/-- Claim C1: for every event stream and every split of its bytes into
chunks (including splits inside a JSON payload or a multi-byte UTF-8
character), feeding the chunks one at a time through `parseSSEStream`
dispatches exactly the same decoded events, in the same order, as feeding
all the bytes as one single chunk. -/
theorem c1_chunk_split_invariance (parse : List Nat → Option JValue)
    (chunks : List (List Nat)) :
    sseDecodedEvents parse chunks = sseDecodedEvents parse [chunks.flatten] ∧
    (parseSSEStream (fun p => (parse p).isSome) chunks).events =
      (parseSSEStream (fun p => (parse p).isSome) [chunks.flatten]).events ∧
    (parseSSEStream (fun p => (parse p).isSome) chunks).aborted =
      (parseSSEStream (fun p => (parse p).isSome) [chunks.flatten]).aborted := by
  have h1 := parseSSEStream_denot (fun p => (parse p).isSome) chunks
  have h2 := parseSSEStream_denot (fun p => (parse p).isSome) [chunks.flatten]
  have hflat : ([chunks.flatten] : List (List Nat)).flatten = chunks.flatten := by
    simp
  rw [hflat] at h2
  refine ⟨?_, ?_, ?_⟩
  · unfold sseDecodedEvents
    rw [h1.1, h2.1]
  · rw [h1.1, h2.1]
  · rw [h1.2, h2.2]

/-! ## Session state

The React state of the `Home` component that the SSE handlers mutate,
collected into one record, together with the two refs
(`readerRef`, `abortControllerRef`) and counters standing in for the
observable side effects of `cancelSearch` (a test double: each counter
counts how often the corresponding call was made). -/

inductive AppState where
  | setup | form | loading | done | error
deriving DecidableEq, Repr

structure CurrentItem where
  listingIndex : Int
  fbTitle : String
  totalListings : Int
deriving DecidableEq, Repr

structure DebugLogEntry where
  level : JValue
  message : JValue
  timestampMs : Int
deriving DecidableEq

/-- One per-listing telemetry record of the debug panel.  Creation paths
guard `typeof fbListingId === "string"` and `typeof listingIndex ===
"number"`, so those two fields are typed; `fbTitle`, `ebayQuery`, `failed`
and `noCompReason` are only checked against `null` and stay `JValue`s.
`productRecon` stores the recon payload opaquely: the `String(...)`
normalisation of its sub-fields and the `citations` attachment are
display-only and no claim depends on them. -/
structure DebugEbayQueryEntry where
  fbListingId : String
  listingIndex : Int
  fbTitle : JValue
  startedAtMs : Int
  ebayQuery : Option JValue
  queryGeneratedAtMs : Option Int
  finishedAtMs : Option Int
  failed : Option JValue
  productRecon : Option JValue
  noCompReason : Option JValue
deriving DecidableEq

structure SessionState where
  appState : AppState
  scannedCount : JValue
  filteredCount : JValue
  evaluatedCount : JValue
  listings : List JValue
  filteredOutListings : List JValue
  debugFacebookListings : List JValue
  debugEbayQueries : List DebugEbayQueryEntry
  debugLogs : List DebugLogEntry
  debugModeEnabled : Bool
  phase : JValue
  currentItem : Option CurrentItem
  errorMsg : Option JValue
  threshold : JValue
  isSearching : Bool
  readerRefSet : Bool
  abortRefSet : Bool
  backendCancelCount : Nat
  readerCancelCount : Nat
  releaseLockCount : Nat
  abortCallCount : Nat
deriving DecidableEq

structure CancelSearchOptions where
  cancelBackend : Bool
  clearError : Bool
  addCancelLog : Bool
deriving DecidableEq, Repr

/-- `cancelSearch()` with no argument: all destructured defaults are `true`. -/
def CancelSearchOptions.default : CancelSearchOptions := ⟨true, true, true⟩

def cancelLogMessage : String := "Search cancelled by user"

/-- `cancelSearch` of the evolved `page.tsx` (lines 427-486), step by step:
backend POST, optional log line, reader cancel/release, abort, resets. -/
def cancelSearch (opts : CancelSearchOptions) (now : Int) (s : SessionState) : SessionState :=
  -- fire-and-forget POST `/api/search/cancel` (failures swallowed)
  let s1 := if opts.cancelBackend
    then { s with backendCancelCount := s.backendCancelCount + 1 } else s
  -- `if (addCancelLog && debugModeEnabled) setDebugLogs(prev => [...prev, warn])`
  let s2 := if opts.addCancelLog && s1.debugModeEnabled then
      { s1 with debugLogs :=
          s1.debugLogs ++ [⟨.str "WARNING", .str cancelLogMessage, now⟩] }
    else s1
  -- `if (readerRef.current) { cancel(); releaseLock(); readerRef.current = null }`
  let s3 := if s2.readerRefSet then
      { s2 with readerCancelCount := s2.readerCancelCount + 1
                releaseLockCount := s2.releaseLockCount + 1
                readerRefSet := false }
    else s2
  -- `if (abortControllerRef.current) { abort(); ref = null }`
  let s4 := if s3.abortRefSet then
      { s3 with abortCallCount := s3.abortCallCount + 1, abortRefSet := false }
    else s3
  let s5 := { s4 with isSearching := false, appState := .form
                      scannedCount := .num 0, filteredCount := .num 0
                      filteredOutListings := [], evaluatedCount := .num 0
                      phase := .str "scraping", currentItem := none }
  if opts.clearError then { s5 with errorMsg := none } else s5

def authErrorMessage : String :=
  "Your Facebook session has expired. Please re-connect your account to keep searching."

def handleAuthError (s : SessionState) : SessionState :=
  { s with isSearching := false, scannedCount := .num 0, filteredCount := .num 0
           filteredOutListings := [], evaluatedCount := .num 0
           phase := .str "scraping", currentItem := none
           errorMsg := some (.str authErrorMessage), appState := .setup }

/-- `handleLocationError`: reset, show the message on the form, then locally
cancel the stream (`cancelBackend: false, clearError: false,
addCancelLog: false`). -/
def handleLocationError (message : JValue) (now : Int) (s : SessionState) : SessionState :=
  let s1 := { s with isSearching := false, scannedCount := .num 0, filteredCount := .num 0
                     evaluatedCount := .num 0, phase := .str "scraping", currentItem := none
                     appState := .form, errorMsg := some message }
  cancelSearch ⟨false, false, false⟩ now s1

/-- `handleCompletion` applied to the object the dispatcher builds for a
`done` event (CSV generation is not part of the session state). -/
def handleCompletion (scanned filtered : JValue) (filteredOut : List JValue)
    (evaluated : JValue) (listings : List JValue) (threshold : Option JValue)
    (s : SessionState) : SessionState :=
  { s with scannedCount := scanned, filteredCount := filtered
           filteredOutListings := filteredOut, evaluatedCount := evaluated
           listings := listings
           threshold := match threshold with
             | some t => if jTruthy t then t else .num 0
             | none => .num 0
           appState := .done }

def onDebugEbayQueryStart (fid : String) (idx : Int) (title : JValue) (now : Int)
    (prev : List DebugEbayQueryEntry) : List DebugEbayQueryEntry :=
  match prev.find? (fun item => item.fbListingId == fid) with
  | some _ => prev
  | none => prev ++ [{ fbListingId := fid, listingIndex := idx, fbTitle := title
                       startedAtMs := now, ebayQuery := none, queryGeneratedAtMs := none
                       finishedAtMs := none, failed := none, productRecon := none
                       noCompReason := none }]

/-- The per-item map of the existing-entry branch of
`onDebugEbayQueryGenerated`: `ebayQuery` is replaced,
`queryGeneratedAtMs := item.queryGeneratedAtMs ?? Date.now()`, and
`failed := false`. -/
def genUpdate (fid : String) (query : JValue) (now : Int)
    (item : DebugEbayQueryEntry) : DebugEbayQueryEntry :=
  if item.fbListingId == fid then
    { item with ebayQuery := some query
                queryGeneratedAtMs := some (item.queryGeneratedAtMs.getD now)
                failed := some (.bool false) }
  else item

def onDebugEbayQueryGenerated (fid : String) (idx : Int) (title : JValue) (query : JValue)
    (now : Int) (prev : List DebugEbayQueryEntry) : List DebugEbayQueryEntry :=
  match prev.find? (fun item => item.fbListingId == fid) with
  | none => prev ++ [{ fbListingId := fid, listingIndex := idx, fbTitle := title
                       startedAtMs := now, ebayQuery := some query
                       queryGeneratedAtMs := some now, finishedAtMs := none
                       failed := some (.bool false), productRecon := none
                       noCompReason := none }]
  | some _ => prev.map (genUpdate fid query now)

/-- The per-item map of `onDebugEbayQueryFinished`:
`finishedAtMs := item.finishedAtMs ?? Date.now()` and
`failed := entry.failed ?? false`. -/
def finUpdate (fid : String) (failedArg : Option JValue) (now : Int)
    (item : DebugEbayQueryEntry) : DebugEbayQueryEntry :=
  if item.fbListingId == fid then
    { item with finishedAtMs := some (item.finishedAtMs.getD now)
                failed := some (match failedArg with
                  | some .null => .bool false
                  | some w => w
                  | none => .bool false) }
  else item

def onDebugEbayQueryFinished (fid : String) (_idx : Int) (failedArg : Option JValue)
    (now : Int) (prev : List DebugEbayQueryEntry) : List DebugEbayQueryEntry :=
  prev.map (finUpdate fid failedArg now)

/-- The per-item map of the existing-entry branch of `onDebugProductRecon`. -/
def reconUpdate (fid : String) (recon : JValue)
    (item : DebugEbayQueryEntry) : DebugEbayQueryEntry :=
  if item.fbListingId == fid then { item with productRecon := some recon } else item

def onDebugProductRecon (fid : String) (idx : Int) (recon : JValue) (now : Int)
    (prev : List DebugEbayQueryEntry) : List DebugEbayQueryEntry :=
  match prev.find? (fun item => item.fbListingId == fid) with
  | none => prev ++ [{ fbListingId := fid, listingIndex := idx, fbTitle := .str ""
                       startedAtMs := now, ebayQuery := none, queryGeneratedAtMs := none
                       finishedAtMs := none, failed := some (.bool false)
                       productRecon := some recon, noCompReason := none }]
  | some _ => prev.map (reconUpdate fid recon)

/-- The telemetry update inside `onListingResult`: attach `noCompReason`
and close the entry's timer; `===` between the entry's string id and the
raw `fbListingId` value. -/
def noCompUpdate (fbListingId : JValue) (noCompReason : JValue) (now : Int)
    (item : DebugEbayQueryEntry) : DebugEbayQueryEntry :=
  if JValue.str item.fbListingId == fbListingId then
    { item with noCompReason := some noCompReason
                finishedAtMs := some (item.finishedAtMs.getD now) }
  else item

def onListingResultQueries (fbListingId : JValue) (noCompReason : JValue) (now : Int)
    (prev : List DebugEbayQueryEntry) : List DebugEbayQueryEntry :=
  prev.map (noCompUpdate fbListingId noCompReason now)

def onListingResult (listing : JValue) (evaluated : Int) (fbListingId : Option JValue)
    (now : Int) (s : SessionState) : SessionState :=
  let s1 := { s with listings := s.listings ++ [listing]
                     evaluatedCount := .num evaluated }
  let fidOk := match fbListingId with
    | some fid => fid != JValue.null
    | none => false
  if fidOk && fieldTruthy listing "noCompReason" then
    let fid := fbListingId.getD JValue.null
    let reason := (getField listing "noCompReason").getD JValue.null
    { s1 with debugEbayQueries := onListingResultQueries fid reason now s1.debugEbayQueries }
  else s1

def onFilteredFacebookListing (listing : JValue) (s : SessionState) : SessionState :=
  { s with filteredOutListings := s.filteredOutListings ++ [listing] }

/-! ## The event dispatcher

`dispatchSSEEvent` of the evolved `page.tsx` (lines 144-278): a sequential
`if/else if` chain on `data.type` and the per-kind field guards, each
branch delegating to one handler.  The function below is applied to the
value `JSON.parse` produced; an invalid-JSON payload throws before this
point (modelled as `parses p = false` in the stream layer, aborting the
read loop), and a parsed `null` would throw on the very first member
access (also a thrown dispatch, same modelling).  `inspector_url` opens a
background browser tab and touches no session state. -/

def dispatchSSEEvent (now : Int) (s : SessionState) (v : JValue) : SessionState :=
  if typeField v = some "auth_error" then
    handleAuthError s
  else if typeField v = some "location_error" then
    handleLocationError (fieldOrElse v "message" (.str "Location not found")) now s
  else if typeField v = some "phase" ∧ fieldNonNull v "phase" then
    { s with phase := (getField v "phase").getD .null }
  else if typeField v = some "filtered_facebook_listing" ∧ fieldTruthy v "listing" then
    onFilteredFacebookListing ((getField v "listing").getD .null) s
  else if typeField v = some "progress" ∧ (fieldNum v "scannedCount").isSome then
    { s with scannedCount := .num ((fieldNum v "scannedCount").getD 0) }
  else if typeField v = some "current_item" ∧ (fieldNum v "listingIndex").isSome
      ∧ (fieldStr v "fbTitle").isSome ∧ (fieldNum v "totalListings").isSome then
    { s with currentItem := some ⟨(fieldNum v "listingIndex").getD 0,
        (fieldStr v "fbTitle").getD "", (fieldNum v "totalListings").getD 0⟩ }
  else if typeField v = some "listing_result" ∧ fieldNonNull v "listing"
      ∧ (fieldNum v "evaluatedCount").isSome then
    onListingResult ((getField v "listing").getD .null)
      ((fieldNum v "evaluatedCount").getD 0) (getField v "fbListingId") now s
  else if typeField v = some "listing_processed" ∧ (fieldNum v "evaluatedCount").isSome then
    { s with evaluatedCount := .num ((fieldNum v "evaluatedCount").getD 0) }
  else if typeField v = some "done" ∧ (fieldArr v "listings").isSome then
    -- `data.filteredOutListings ?? []` is typed `DebugFacebookListing[]`;
    -- a present non-array value would crash the first render `.map` over
    -- it, so only the array/absent/null cases are modelled.
    handleCompletion (fieldCoalesce v "scannedCount" (.num 0))
      (fieldCoalesce v "filteredCount" (.num 0))
      ((fieldArr v "filteredOutListings").getD [])
      (fieldCoalesce v "evaluatedCount" (.num 0))
      ((fieldArr v "listings").getD [])
      (getField v "threshold") s
  else if typeField v = some "debug_mode" ∧ fieldTruthy v "debug" then
    -- `const showLogs = Boolean(logsEnabled)`, persisted and set
    { s with debugModeEnabled := fieldTruthy v "logsEnabled" }
  else if typeField v = some "debug_facebook" ∧ (fieldArr v "listings").isSome then
    { s with debugFacebookListings := (fieldArr v "listings").getD [] }
  else if typeField v = some "debug_facebook_listing" ∧ fieldTruthy v "listing" then
    { s with debugFacebookListings :=
        s.debugFacebookListings ++ [(getField v "listing").getD .null] }
  else if typeField v = some "debug_ebay_query_start" ∧ fieldNonNull v "fbTitle"
      ∧ (fieldNum v "listingIndex").isSome ∧ (fieldStr v "fbListingId").isSome then
    { s with debugEbayQueries :=
        (onDebugEbayQueryStart ((fieldStr v "fbListingId").getD "")
          ((fieldNum v "listingIndex").getD 0) ((getField v "fbTitle").getD .null)
          now s.debugEbayQueries) }
  else if (typeField v = some "debug_ebay_query_generated" ∨ typeField v = some "debug_ebay_query")
      ∧ fieldNonNull v "fbTitle" ∧ fieldNonNull v "ebayQuery" then
    -- the inner `if`: branch taken, but no handler call without id/index
    if (fieldNum v "listingIndex").isSome ∧ (fieldStr v "fbListingId").isSome then
      { s with debugEbayQueries :=
          (onDebugEbayQueryGenerated ((fieldStr v "fbListingId").getD "")
            ((fieldNum v "listingIndex").getD 0) ((getField v "fbTitle").getD .null)
            ((getField v "ebayQuery").getD .null) now s.debugEbayQueries) }
    else s
  else if typeField v = some "debug_ebay_query_finished"
      ∧ (fieldNum v "listingIndex").isSome ∧ (fieldStr v "fbListingId").isSome then
    { s with debugEbayQueries :=
        (onDebugEbayQueryFinished ((fieldStr v "fbListingId").getD "")
          ((fieldNum v "listingIndex").getD 0) (getField v "failed")
          now s.debugEbayQueries) }
  else if typeField v = some "debug_product_recon"
      ∧ (fieldNum v "listingIndex").isSome ∧ (fieldStr v "fbListingId").isSome
      ∧ fieldNonNull v "recon" then
    { s with debugEbayQueries :=
        (onDebugProductRecon ((fieldStr v "fbListingId").getD "")
          ((fieldNum v "listingIndex").getD 0) ((getField v "recon").getD .null)
          now s.debugEbayQueries) }
  else if typeField v = some "debug_log" ∧ fieldNonNull v "level"
      ∧ fieldNonNull v "message" then
    { s with debugLogs := s.debugLogs ++
        [⟨(getField v "level").getD .null, (getField v "message").getD .null, now⟩] }
  else if typeField v = some "inspector_url" ∧ (fieldStr v "url").isSome then
    -- `openBackgroundTab(url)`: external side effect only
    s
  else
    s

/-- Fold a list of already-decoded events through the dispatcher. -/
def dispatchEvents (now : Int) (s : SessionState) (evs : List JValue) : SessionState :=
  evs.foldl (dispatchSSEEvent now) s

/-- Session state at the moment `parseSSEStream` starts reading: the
`onSubmit` reset has run (counts zeroed, collections emptied, phase
`"scraping"`, app in `loading`), `performSearch` has installed the abort
controller and the stream reader.  The three separator lines `onSubmit`
pushes into `debugLogs` are elided (no claim reads them). -/
def initialSearchState : SessionState :=
  { appState := .loading, scannedCount := .num 0, filteredCount := .num 0
    evaluatedCount := .num 0, listings := [], filteredOutListings := []
    debugFacebookListings := [], debugEbayQueries := [], debugLogs := []
    debugModeEnabled := false, phase := .str "scraping", currentItem := none
    errorMsg := none, threshold := .num 0, isSearching := true
    readerRefSet := true, abortRefSet := true
    backendCancelCount := 0, readerCancelCount := 0, releaseLockCount := 0
    abortCallCount := 0 }

/-! ## `SearchLoadingView`: the derived pending view

The loading view receives the session's collections as props and derives
the pending rows by URL set-subtraction (lines 93-120 of
`SearchLoadingView.tsx`). -/

structure PendingRow where
  title : Option JValue
  price : Option JValue
  currency : JValue
  location : Option JValue
  url : Option JValue
  dealScore : JValue
deriving DecidableEq

def listingUrls (ls : List JValue) : List (Option JValue) :=
  ls.map (fun l => getField l "url")

/-- `allFacebookListingsAsListings`: seen Facebook listings whose url is in
neither the evaluated url set nor the filtered-out url set, mapped to
display rows with `currency: "$"` and `dealScore: null`. -/
def allFacebookListingsAsListings
    (facebookListings listings filteredOutListings : List JValue) : List PendingRow :=
  if 0 < facebookListings.length then
    (facebookListings.filter (fun fb =>
        !(listingUrls listings).contains (getField fb "url")
        && !(listingUrls filteredOutListings).contains (getField fb "url"))).map
      (fun fb => ⟨getField fb "title", getField fb "price", .str "$",
                  getField fb "location", getField fb "url", .null⟩)
  else []

/-! ## `ResultsTable`: combined display ordering

The results table is typed TS operating on `Listing` /
`FilteredOutListingRow` records; we mirror those interfaces directly
(fields not consulted by the sort are kept for completeness where cheap,
`compPrices`/`compItems` are omitted). -/

structure Listing where
  title : String
  price : Int
  currency : Option String
  location : String
  url : String
  dealScore : Option Int
  ebaySearchQuery : Option String
  compPrice : Option Int
  noCompReason : Option String
deriving DecidableEq, Repr

structure FilteredOutListingRow where
  title : String
  price : Int
  location : String
  url : String
  fbListingId : Option String
  filterReason : Option String
deriving DecidableEq, Repr

/-- Offset used to sort post-eval filtered (newer) above pre-eval filtered
(older). -/
def FILTERED_RECENCY_OFFSET : Nat := 1000000

structure ListingFilterInfo where
  isFiltered : Bool
  isPostEval : Bool
deriving DecidableEq, Repr

/-- `getListingFilterInfo` (ResultsTable.tsx lines 56-69).  The TS union
`{isFiltered: true, isPostEval} | {isFiltered: false}` is flattened with
`isPostEval := false` in the non-filtered case. -/
def getListingFilterInfo (listing : Listing) (filteredOutUrls : List String) :
    ListingFilterInfo :=
  let inFilteredOut := filteredOutUrls.contains listing.url
  let hasNoCompReason := match listing.noCompReason with
    | some r => r != ""
    | none => false
  let ranEbayQuery := match listing.ebaySearchQuery with
    | some q => q.trim != ""
    | none => false
  let isFiltered := listing.dealScore.isNone
    && (inFilteredOut || (hasNoCompReason && !ranEbayQuery))
  if isFiltered then ⟨true, hasNoCompReason && !inFilteredOut⟩ else ⟨false, false⟩

/-- `filteredOutToListing`: a filtered-out row as a display listing. -/
def filteredOutToListing (row : FilteredOutListingRow) : Listing :=
  { title := row.title, price := row.price, currency := none
    location := row.location, url := row.url, dealScore := none
    ebaySearchQuery := none, compPrice := none
    noCompReason := some (row.filterReason.getD "Filtered before evaluation") }

structure FilteredEntry where
  listing : Listing
  idx : Nat
  isPostEval : Bool
deriving DecidableEq, Repr

/-- The `displayListings.forEach((listing, idx) => ...)` partition into
filtered entries (with their original index and post-eval flag) and
non-filtered listings, both in encounter order. -/
def partitionDisplay (urls : List String) : List Listing → Nat →
    List FilteredEntry × List Listing
  | [], _ => ([], [])
  | l :: rest, i =>
      let r := partitionDisplay urls rest (i + 1)
      let info := getListingFilterInfo l urls
      if info.isFiltered then (⟨l, i, info.isPostEval⟩ :: r.1, r.2)
      else (r.1, l :: r.2)

/-- `recencyA` / `recencyB` of the comparator. -/
def filteredRecency (e : FilteredEntry) : Nat :=
  if e.isPostEval then e.idx + FILTERED_RECENCY_OFFSET else e.idx

/-- `a` may stay before `b` under the comparator
`(a, b) => recencyB - recencyA`.  `Array.prototype.sort` is stable, so for
this comparator (a total preorder) its output is exactly the stable
descending-recency arrangement, which `List.insertionSort` computes. -/
def recencyGE (a b : FilteredEntry) : Prop := filteredRecency b ≤ filteredRecency a

instance : DecidableRel recencyGE := fun _ _ => Nat.decLe _ _

instance : IsTotal FilteredEntry recencyGE :=
  ⟨fun a b => (Nat.le_total (filteredRecency b) (filteredRecency a)).elim Or.inl Or.inr⟩

instance : IsTrans FilteredEntry recencyGE :=
  ⟨fun _ _ _ hab hbc => le_trans hbc hab⟩

/-- `new Set(filteredOutListings.map(item => item.url))`. -/
def filteredOutUrlsOf (filteredOutListings : List FilteredOutListingRow) : List String :=
  filteredOutListings.map (·.url)

def sortedFilteredEntries (displayListings : List Listing)
    (filteredOutListings : List FilteredOutListingRow) : List FilteredEntry :=
  List.insertionSort recencyGE
    (partitionDisplay (filteredOutUrlsOf filteredOutListings) displayListings 0).1

/-- `sortedDisplayListings` (ResultsTable.tsx lines 156-173): non-filtered
listings in natural order, then the filtered entries sorted by descending
recency. -/
def sortedDisplayListings (displayListings : List Listing)
    (filteredOutListings : List FilteredOutListingRow) : List Listing :=
  (partitionDisplay (filteredOutUrlsOf filteredOutListings) displayListings 0).2
    ++ (sortedFilteredEntries displayListings filteredOutListings).map (·.listing)

/-- "The two recency orders never interleave": once a pre-eval entry
appears, no post-eval entry follows. -/
def postBeforePre (entries : List FilteredEntry) : Prop :=
  List.Pairwise (fun a b => b.isPostEval = true → a.isPostEval = true) entries

/-! ## Claim theorems -/

theorem JArr.toList_ofList (xs : List JValue) : (JArr.ofList xs).toList = xs := by
  induction xs with
  | nil => rfl
  | cons x rest ih => simp [JArr.ofList, JArr.toList, ih]

/-- Claim C10: a `done` event whose payload carries a listings array but
omits `scannedCount`, `filteredCount` and `evaluatedCount` still fires
completion: the app reaches the `done` state, `listings` is replaced, and
each omitted count is set to `0` — overwriting whatever counts the
incremental events had accumulated in `s`. -/
theorem c10_done_omitted_counts_default_zero (now : Int) (s : SessionState) (v : JValue)
    (ls : List JValue)
    (hty : typeField v = some "done")
    (hls : getField v "listings" = some (.arr (JArr.ofList ls)))
    (hsc : getField v "scannedCount" = none)
    (hfc : getField v "filteredCount" = none)
    (hec : getField v "evaluatedCount" = none) :
    (dispatchSSEEvent now s v).scannedCount = .num 0 ∧
    (dispatchSSEEvent now s v).filteredCount = .num 0 ∧
    (dispatchSSEEvent now s v).evaluatedCount = .num 0 ∧
    (dispatchSSEEvent now s v).appState = .done ∧
    (dispatchSSEEvent now s v).listings = ls := by
  have hfa : fieldArr v "listings" = some ((JArr.ofList ls).toList) := by
    simp [fieldArr, hls]
  have hone : dispatchSSEEvent now s v =
      handleCompletion (fieldCoalesce v "scannedCount" (.num 0))
        (fieldCoalesce v "filteredCount" (.num 0))
        ((fieldArr v "filteredOutListings").getD [])
        (fieldCoalesce v "evaluatedCount" (.num 0))
        ((fieldArr v "listings").getD [])
        (getField v "threshold") s := by
    simp [dispatchSSEEvent, hty, hfa]
  rw [hone]
  simp [handleCompletion, fieldCoalesce, hsc, hfc, hec, hfa, JArr.toList_ofList]

def c10v : JValue := jo [("type", .str "done"), ("listings", ja [])]

def c10s : SessionState :=
  { initialSearchState with scannedCount := .num 5, filteredCount := .num 2
                            evaluatedCount := .num 3 }

theorem c10_witness :
    (typeField c10v = some "done" ∧ getField c10v "scannedCount" = none) ∧
    ((dispatchSSEEvent 0 c10s c10v).scannedCount = .num 0 ∧
     (dispatchSSEEvent 0 c10s c10v).filteredCount = .num 0 ∧
     (dispatchSSEEvent 0 c10s c10v).evaluatedCount = .num 0 ∧
     (dispatchSSEEvent 0 c10s c10v).appState = .done ∧
     (dispatchSSEEvent 0 c10s c10v).listings = []) :=
  ⟨⟨by decide, by decide⟩,
   c10_done_omitted_counts_default_zero 0 c10s c10v []
     (by decide) (by decide) (by decide) (by decide) (by decide)⟩

def c4DoneEvent : JValue :=
  jo [("type", .str "done"), ("listings", ja []), ("scannedCount", .num 2)]

def c4TerminalState : SessionState := dispatchSSEEvent 0 initialSearchState c4DoneEvent

/-- Counterexample to claim C4: after a `done` event the session is in the
terminal `done` state, yet a later `progress` event still overwrites
`scannedCount` (2 becomes 7) and a later `auth_error` transitions out of
`done` into `setup` — post-terminal events are not ignored. -/
theorem c4_counterexample :
    c4TerminalState.appState = AppState.done ∧
    c4TerminalState.scannedCount = JValue.num 2 ∧
    (dispatchSSEEvent 0 c4TerminalState
      (jo [("type", .str "progress"), ("scannedCount", .num 7)])).scannedCount
      = JValue.num 7 ∧
    (dispatchSSEEvent 0 c4TerminalState
      (jo [("type", .str "progress"), ("scannedCount", .num 7)]))
      ≠ c4TerminalState ∧
    (dispatchSSEEvent 0 c4TerminalState
      (jo [("type", .str "auth_error")])).appState = AppState.setup := by
  refine ⟨by decide, by decide, by decide, by decide, by decide⟩

/-- Claim C4 (amended): the dispatcher has no terminal-state guard — an
event is processed the same way in every session state, the terminal ones
included: `progress` always overwrites `scannedCount` and `auth_error`
always resets and routes to `setup`. -/
theorem c4_amended_no_terminal_guard (now : Int) (s : SessionState) (n : Int) :
    dispatchSSEEvent now s (jo [("type", .str "progress"), ("scannedCount", .num n)])
      = { s with scannedCount := .num n } ∧
    dispatchSSEEvent now s (jo [("type", .str "auth_error")]) = handleAuthError s := by
  constructor
  · rfl
  · rfl

/-- The event kinds `dispatchSSEEvent` recognises (the strings its `===`
chain compares against). -/
def recognizedEventKinds : List String :=
  ["auth_error", "location_error", "phase", "filtered_facebook_listing", "progress",
   "current_item", "listing_result", "listing_processed", "done", "debug_mode",
   "debug_facebook", "debug_facebook_listing", "debug_ebay_query_start",
   "debug_ebay_query_generated", "debug_ebay_query", "debug_ebay_query_finished",
   "debug_product_recon", "debug_log", "inspector_url"]

/-- Recognised kinds whose branch has a required-field guard (all of them
except `auth_error`, which needs no fields, and `location_error`, which the
dispatcher handles even without its `message`). -/
def guardedEventKinds : List String :=
  ["phase", "filtered_facebook_listing", "progress", "current_item", "listing_result",
   "listing_processed", "done", "debug_mode", "debug_facebook", "debug_facebook_listing",
   "debug_ebay_query_start", "debug_ebay_query_generated", "debug_ebay_query",
   "debug_ebay_query_finished", "debug_product_recon", "debug_log", "inspector_url"]

/-- The required-field guard of each branch, read off `dispatchSSEEvent`:
`requiredFieldsOk t v = false` is "an event of kind `t` missing (or
mis-typing) one of its required fields". -/
def requiredFieldsOk (t : String) (v : JValue) : Bool :=
  if t = "phase" then fieldNonNull v "phase"
  else if t = "filtered_facebook_listing" then fieldTruthy v "listing"
  else if t = "progress" then (fieldNum v "scannedCount").isSome
  else if t = "current_item" then
    (fieldNum v "listingIndex").isSome && (fieldStr v "fbTitle").isSome
      && (fieldNum v "totalListings").isSome
  else if t = "listing_result" then
    fieldNonNull v "listing" && (fieldNum v "evaluatedCount").isSome
  else if t = "listing_processed" then (fieldNum v "evaluatedCount").isSome
  else if t = "done" then (fieldArr v "listings").isSome
  else if t = "debug_mode" then fieldTruthy v "debug"
  else if t = "debug_facebook" then (fieldArr v "listings").isSome
  else if t = "debug_facebook_listing" then fieldTruthy v "listing"
  else if t = "debug_ebay_query_start" then
    fieldNonNull v "fbTitle" && (fieldNum v "listingIndex").isSome
      && (fieldStr v "fbListingId").isSome
  else if t = "debug_ebay_query_generated" ∨ t = "debug_ebay_query" then
    fieldNonNull v "fbTitle" && fieldNonNull v "ebayQuery"
      && (fieldNum v "listingIndex").isSome && (fieldStr v "fbListingId").isSome
  else if t = "debug_ebay_query_finished" then
    (fieldNum v "listingIndex").isSome && (fieldStr v "fbListingId").isSome
  else if t = "debug_product_recon" then
    (fieldNum v "listingIndex").isSome && (fieldStr v "fbListingId").isSome
      && fieldNonNull v "recon"
  else if t = "debug_log" then fieldNonNull v "level" && fieldNonNull v "message"
  else if t = "inspector_url" then (fieldStr v "url").isSome
  else true

/-- Claim C6 (amended): for every guarded recognised kind — that is, every
recognised kind except `location_error` (and `auth_error`, which requires
no fields) — an event missing one of its required fields is dropped with
no state mutation of any kind and processing continues. -/
theorem c6_amended_missing_required_field_dropped (now : Int) (s : SessionState)
    (v : JValue) (t : String) (hty : typeField v = some t)
    (hmem : t ∈ guardedEventKinds) (hreq : requiredFieldsOk t v = false) :
    dispatchSSEEvent now s v = s := by
  simp only [guardedEventKinds, List.mem_cons, List.not_mem_nil, or_false] at hmem
  rcases hmem with rfl | rfl | rfl | rfl | rfl | rfl | rfl | rfl | rfl | rfl | rfl | rfl
    | rfl | rfl | rfl | rfl | rfl <;>
  simp [requiredFieldsOk] at hreq <;>
  first
  | (simp [dispatchSSEEvent, hty]
     done)
  | (simp [dispatchSSEEvent, hty]
     intro hA
     simp [hreq] at hA
     done)
  | (simp [dispatchSSEEvent, hty]
     intro hA hB
     simp [hA] at hreq
     simp [hreq] at hB
     done)
  | (simp [dispatchSSEEvent, hty]
     intro hA hB hC
     simp [hA, hB] at hreq
     simp [hreq] at hC
     done)
  | (simp [dispatchSSEEvent, hty]
     intro hA hB
     simp [hA, hB] at hreq
     cases hC : (fieldNum v "listingIndex").isSome <;>
       cases hD : (fieldStr v "fbListingId").isSome <;> simp_all
     done)

/-- Counterexample to claim C6: `location_error` is a recognised kind whose
required field per the interface table is `message`, yet an event of that
kind with the field missing is NOT dropped: the dispatcher substitutes
"Location not found" and runs the full error handling, mutating the state
(app routed to the form, error message set, searching stopped). -/
theorem c6_counterexample :
    (dispatchSSEEvent 0 initialSearchState
      (jo [("type", .str "location_error")])).appState = AppState.form ∧
    (dispatchSSEEvent 0 initialSearchState
      (jo [("type", .str "location_error")])).errorMsg
      = some (JValue.str "Location not found") ∧
    initialSearchState.appState = AppState.loading ∧
    initialSearchState.errorMsg = none ∧
    dispatchSSEEvent 0 initialSearchState (jo [("type", .str "location_error")])
      ≠ initialSearchState := by
  refine ⟨by decide, by decide, by decide, by decide, by decide⟩

def c6v : JValue := jo [("type", .str "progress")]

theorem c6_amended_witness :
    (typeField c6v = some "progress" ∧ "progress" ∈ guardedEventKinds ∧
      requiredFieldsOk "progress" c6v = false) ∧
    dispatchSSEEvent 0 initialSearchState c6v = initialSearchState :=
  ⟨⟨by decide, by decide, by decide⟩,
   c6_amended_missing_required_field_dropped 0 initialSearchState c6v "progress"
     (by decide) (by decide) (by decide)⟩

def c2Events : List JValue :=
  [jo [("type", .str "filtered_facebook_listing"), ("listing", jo [("url", .str "x")])],
   jo [("type", .str "listing_result"), ("listing", jo [("url", .str "x")]),
       ("evaluatedCount", .num 1)]]

/-- Counterexample to claim C2 (scenario E): a `filtered_facebook_listing`
for id `x` followed by a `listing_result` for the same id leaves `x` in
BOTH the evaluated listings and the filtered-out collection — nothing
removes the filtered-out entry — so the evaluated and filtered-out id sets
are not disjoint and `x` does not end up "in evaluated only". -/
theorem c2_counterexample :
    (dispatchEvents 0 initialSearchState c2Events).listings
      = [jo [("url", .str "x")]] ∧
    (dispatchEvents 0 initialSearchState c2Events).filteredOutListings
      = [jo [("url", .str "x")]] ∧
    some (JValue.str "x") ∈ listingUrls (dispatchEvents 0 initialSearchState c2Events).listings ∧
    some (JValue.str "x")
      ∈ listingUrls (dispatchEvents 0 initialSearchState c2Events).filteredOutListings := by
  refine ⟨by decide, by decide, by decide, by decide⟩

/-- Claim C2 (amended): the derived pending view is disjoint from both
authoritative collections by construction — no pending row carries a url
present among the evaluated listings or the filtered-out listings.  (The
evaluated and filtered-out collections themselves are NOT kept disjoint;
see the counterexample.) -/
theorem c2_amended_pending_disjoint
    (facebookListings listings filteredOutListings : List JValue) (r : PendingRow)
    (hr : r ∈ allFacebookListingsAsListings facebookListings listings filteredOutListings) :
    r.url ∉ listingUrls listings ∧ r.url ∉ listingUrls filteredOutListings := by
  unfold allFacebookListingsAsListings at hr
  by_cases h : 0 < facebookListings.length
  · simp only [h, if_true, List.mem_map] at hr
    obtain ⟨fb, hfb, rfl⟩ := hr
    simp only [List.mem_filter, Bool.and_eq_true, Bool.not_eq_true'] at hfb
    obtain ⟨-, hc1, hc2⟩ := hfb
    constructor
    · intro hmem
      have hcm : (listingUrls listings).contains (getField fb "url") = true := by
        simp only [List.contains, List.elem_iff]
        exact hmem
      rw [hcm] at hc1
      exact absurd hc1 (by simp)
    · intro hmem
      have hcm : (listingUrls filteredOutListings).contains (getField fb "url") = true := by
        simp only [List.contains, List.elem_iff]
        exact hmem
      rw [hcm] at hc2
      exact absurd hc2 (by simp)
  · simp [h] at hr

def c2Row : PendingRow := ⟨none, none, .str "$", none, some (.str "a"), .null⟩

theorem c2_amended_witness :
    (c2Row ∈ allFacebookListingsAsListings [jo [("url", .str "a")]] [] []) ∧
    (c2Row.url ∉ listingUrls [] ∧ c2Row.url ∉ listingUrls []) :=
  ⟨by decide, c2_amended_pending_disjoint [jo [("url", .str "a")]] [] [] c2Row (by decide)⟩

def c3Start : SessionState := { initialSearchState with debugModeEnabled := true }

/-- Counterexample to claim C3: cancelling twice does NOT produce the same
end state with side effects counted at most once — the second invocation
fires a second backend cancel notification (the fire-and-forget POST is
sent once per call) and, with debug logging on, appends a second
cancellation log line, so even the end states differ. -/
theorem c3_counterexample :
    (cancelSearch .default 1 (cancelSearch .default 0 c3Start)).backendCancelCount = 2 ∧
    (cancelSearch .default 0 c3Start).backendCancelCount = 1 ∧
    (cancelSearch .default 1 (cancelSearch .default 0 c3Start)).debugLogs.length = 2 ∧
    (cancelSearch .default 0 c3Start).debugLogs.length = 1 ∧
    cancelSearch .default 1 (cancelSearch .default 0 c3Start)
      ≠ cancelSearch .default 0 c3Start := by
  have h2 : (cancelSearch .default 1
      (cancelSearch .default 0 c3Start)).debugLogs.length = 2 := by decide
  have h1 : (cancelSearch .default 0 c3Start).debugLogs.length = 1 := by decide
  refine ⟨by decide, by decide, h2, h1, fun h => ?_⟩
  rw [h, h1] at h2
  exact absurd h2 (by decide)

/-- Claim C3 (amended): a second `cancelSearch()` raises no additional
abort signal and no additional reader cancel/release (the refs were
nulled), and resets every session field to the same value; but it always
sends one more backend cancel notification, and appends one more
cancellation log line whenever debug logging is enabled. -/
theorem c3_amended_second_cancel (now1 now2 : Int) (s : SessionState) :
    (cancelSearch .default now2 (cancelSearch .default now1 s)).abortCallCount
      = (cancelSearch .default now1 s).abortCallCount ∧
    (cancelSearch .default now2 (cancelSearch .default now1 s)).readerCancelCount
      = (cancelSearch .default now1 s).readerCancelCount ∧
    (cancelSearch .default now2 (cancelSearch .default now1 s)).releaseLockCount
      = (cancelSearch .default now1 s).releaseLockCount ∧
    (cancelSearch .default now2 (cancelSearch .default now1 s)).appState
      = (cancelSearch .default now1 s).appState ∧
    (cancelSearch .default now2 (cancelSearch .default now1 s)).scannedCount
      = (cancelSearch .default now1 s).scannedCount ∧
    (cancelSearch .default now2 (cancelSearch .default now1 s)).filteredCount
      = (cancelSearch .default now1 s).filteredCount ∧
    (cancelSearch .default now2 (cancelSearch .default now1 s)).evaluatedCount
      = (cancelSearch .default now1 s).evaluatedCount ∧
    (cancelSearch .default now2 (cancelSearch .default now1 s)).filteredOutListings
      = (cancelSearch .default now1 s).filteredOutListings ∧
    (cancelSearch .default now2 (cancelSearch .default now1 s)).listings
      = (cancelSearch .default now1 s).listings ∧
    (cancelSearch .default now2 (cancelSearch .default now1 s)).phase
      = (cancelSearch .default now1 s).phase ∧
    (cancelSearch .default now2 (cancelSearch .default now1 s)).currentItem
      = (cancelSearch .default now1 s).currentItem ∧
    (cancelSearch .default now2 (cancelSearch .default now1 s)).errorMsg
      = (cancelSearch .default now1 s).errorMsg ∧
    (cancelSearch .default now2 (cancelSearch .default now1 s)).isSearching
      = (cancelSearch .default now1 s).isSearching ∧
    (cancelSearch .default now2 (cancelSearch .default now1 s)).backendCancelCount
      = (cancelSearch .default now1 s).backendCancelCount + 1 ∧
    (cancelSearch .default now2 (cancelSearch .default now1 s)).debugLogs
      = (if s.debugModeEnabled then
          (cancelSearch .default now1 s).debugLogs
            ++ [⟨.str "WARNING", .str cancelLogMessage, now2⟩]
         else (cancelSearch .default now1 s).debugLogs) := by
  cases hR : s.readerRefSet <;> cases hA : s.abortRefSet <;> cases hD : s.debugModeEnabled <;>
    simp [cancelSearch, CancelSearchOptions.default, hR, hA, hD]

/-! ### Claim C8: the telemetry upsert -/

/-- Timestamp fields of an entry are never moved: `startedAtMs` is kept,
and an already-set `queryGeneratedAtMs` / `finishedAtMs` keeps its value. -/
def tsPreserved (e e' : DebugEbayQueryEntry) : Prop :=
  e'.startedAtMs = e.startedAtMs ∧
  (∀ t, e.queryGeneratedAtMs = some t → e'.queryGeneratedAtMs = some t) ∧
  (∀ t, e.finishedAtMs = some t → e'.finishedAtMs = some t)

/-- Position-wise timestamp preservation: the update may append entries but
every pre-existing position keeps its timestamps. -/
def listTsPreserved (old new : List DebugEbayQueryEntry) : Prop :=
  List.Forall₂ tsPreserved old (new.take old.length)

theorem tsPreserved_refl (e : DebugEbayQueryEntry) : tsPreserved e e :=
  ⟨rfl, fun _ h => h, fun _ h => h⟩

theorem listTsPreserved_refl (l : List DebugEbayQueryEntry) : listTsPreserved l l := by
  unfold listTsPreserved
  rw [List.take_length]
  exact List.forall₂_same.mpr (fun e _ => tsPreserved_refl e)

theorem listTsPreserved_append (l ext : List DebugEbayQueryEntry) :
    listTsPreserved l (l ++ ext) := by
  unfold listTsPreserved
  rw [List.take_left]
  exact List.forall₂_same.mpr (fun e _ => tsPreserved_refl e)

theorem listTsPreserved_map (f : DebugEbayQueryEntry → DebugEbayQueryEntry)
    (hf : ∀ e, tsPreserved e (f e)) (l : List DebugEbayQueryEntry) :
    listTsPreserved l (l.map f) := by
  unfold listTsPreserved
  have hlen : (l.map f).length = l.length := by simp
  rw [← hlen, List.take_length]
  induction l with
  | nil => exact List.Forall₂.nil
  | cons e rest ih => exact List.Forall₂.cons (hf e) (ih (by simp))


theorem genUpdate_fbListingId (fid : String) (query : JValue) (now : Int)
    (item : DebugEbayQueryEntry) :
    (genUpdate fid query now item).fbListingId = item.fbListingId := by
  unfold genUpdate
  split <;> rfl

theorem genUpdate_idem (fid : String) (query : JValue) (now1 now2 : Int)
    (item : DebugEbayQueryEntry) :
    genUpdate fid query now2 (genUpdate fid query now1 item)
      = genUpdate fid query now1 item := by
  unfold genUpdate
  by_cases h : (item.fbListingId == fid) = true <;> simp [h]

theorem finUpdate_idem (fid : String) (failedArg : Option JValue) (now1 now2 : Int)
    (item : DebugEbayQueryEntry) :
    finUpdate fid failedArg now2 (finUpdate fid failedArg now1 item)
      = finUpdate fid failedArg now1 item := by
  unfold finUpdate
  by_cases h : (item.fbListingId == fid) = true <;> simp [h]

theorem tsPreserved_genUpdate (fid : String) (query : JValue) (now : Int)
    (item : DebugEbayQueryEntry) : tsPreserved item (genUpdate fid query now item) := by
  unfold genUpdate tsPreserved
  split
  · exact ⟨rfl, fun t ht => by simp [ht], fun t ht => ht⟩
  · exact ⟨rfl, fun _ h => h, fun _ h => h⟩

theorem tsPreserved_finUpdate (fid : String) (failedArg : Option JValue) (now : Int)
    (item : DebugEbayQueryEntry) : tsPreserved item (finUpdate fid failedArg now item) := by
  unfold finUpdate tsPreserved
  split
  · exact ⟨rfl, fun t ht => ht, fun t ht => by simp [ht]⟩
  · exact ⟨rfl, fun _ h => h, fun _ h => h⟩

theorem tsPreserved_reconUpdate (fid : String) (recon : JValue)
    (item : DebugEbayQueryEntry) : tsPreserved item (reconUpdate fid recon item) := by
  unfold reconUpdate tsPreserved
  split
  · exact ⟨rfl, fun t ht => ht, fun t ht => ht⟩
  · exact ⟨rfl, fun _ h => h, fun _ h => h⟩

theorem tsPreserved_noCompUpdate (fbListingId noCompReason : JValue) (now : Int)
    (item : DebugEbayQueryEntry) :
    tsPreserved item (noCompUpdate fbListingId noCompReason now item) := by
  unfold noCompUpdate tsPreserved
  split
  · exact ⟨rfl, fun t ht => ht, fun t ht => by simp [ht]⟩
  · exact ⟨rfl, fun _ h => h, fun _ h => h⟩

/-- Claim C8: the debug telemetry upsert is idempotent and
timestamp-monotonic.  Applying the same query-generated event a second
time (even at a later clock) returns the very same entry list — in
particular `queryGeneratedAtMs` never changes after the first application
— and likewise a repeated query-finished event never changes
`finishedAtMs`; moreover every one of the five update paths
(`onDebugEbayQueryStart`, `...Generated`, `...Finished`,
`onDebugProductRecon`, and the `noCompReason` attachment inside
`onListingResult`) preserves `startedAtMs` and every already-set
`queryGeneratedAtMs` / `finishedAtMs` of every pre-existing entry. -/
theorem c8_upsert_idempotent_monotonic :
    (∀ (prev : List DebugEbayQueryEntry) (fid : String) (idx : Int)
        (title query : JValue) (now1 now2 : Int),
      onDebugEbayQueryGenerated fid idx title query now2
          (onDebugEbayQueryGenerated fid idx title query now1 prev)
        = onDebugEbayQueryGenerated fid idx title query now1 prev) ∧
    (∀ (prev : List DebugEbayQueryEntry) (fid : String) (idx : Int)
        (failedArg : Option JValue) (now1 now2 : Int),
      onDebugEbayQueryFinished fid idx failedArg now2
          (onDebugEbayQueryFinished fid idx failedArg now1 prev)
        = onDebugEbayQueryFinished fid idx failedArg now1 prev) ∧
    (∀ (prev : List DebugEbayQueryEntry) (fid : String) (idx : Int)
        (title : JValue) (now : Int),
      listTsPreserved prev (onDebugEbayQueryStart fid idx title now prev)) ∧
    (∀ (prev : List DebugEbayQueryEntry) (fid : String) (idx : Int)
        (title query : JValue) (now : Int),
      listTsPreserved prev (onDebugEbayQueryGenerated fid idx title query now prev)) ∧
    (∀ (prev : List DebugEbayQueryEntry) (fid : String) (idx : Int)
        (failedArg : Option JValue) (now : Int),
      listTsPreserved prev (onDebugEbayQueryFinished fid idx failedArg now prev)) ∧
    (∀ (prev : List DebugEbayQueryEntry) (fid : String) (idx : Int)
        (recon : JValue) (now : Int),
      listTsPreserved prev (onDebugProductRecon fid idx recon now prev)) ∧
    (∀ (prev : List DebugEbayQueryEntry) (fid reason : JValue) (now : Int),
      listTsPreserved prev (onListingResultQueries fid reason now prev)) := by
  refine ⟨?_, ?_, ?_, ?_, ?_, ?_, ?_⟩
  · -- the query-generated upsert is idempotent
    intro prev fid idx title query now1 now2
    rcases hfind : prev.find? (fun item => item.fbListingId == fid) with _ | e
    · -- absent: the first call appends a fresh entry, the second call
      -- finds it and maps the no-op update over everything
      simp only [onDebugEbayQueryGenerated, hfind]
      have hfind2 : (prev ++ [(⟨fid, idx, title, now1, some query, some now1, none,
          some (.bool false), none, none⟩ : DebugEbayQueryEntry)]).find?
          (fun item => item.fbListingId == fid)
          = some ⟨fid, idx, title, now1, some query, some now1, none,
              some (.bool false), none, none⟩ := by
        rw [List.find?_append, hfind, Option.none_or]
        simp
      simp only [hfind2]
      rw [List.map_append]
      congr 1
      · have hnomatch : ∀ x ∈ prev, genUpdate fid query now2 x = id x := by
          intro x hx
          have hne := List.find?_eq_none.mp hfind x hx
          simp only [Bool.not_eq_true] at hne
          simp [genUpdate, hne]
        rw [List.map_congr_left hnomatch, List.map_id]
      · simp [genUpdate]
    · -- present: both calls map, and the update is pointwise idempotent
      have he := List.mem_of_find?_eq_some hfind
      have hpe : (e.fbListingId == fid) = true := by
        have h := List.find?_some hfind
        exact h
      simp only [onDebugEbayQueryGenerated, hfind]
      have hsome : ((prev.map (genUpdate fid query now1)).find?
          (fun item => item.fbListingId == fid)).isSome = true := by
        rw [List.find?_isSome]
        exact ⟨genUpdate fid query now1 e, List.mem_map_of_mem _ he,
          by rw [genUpdate_fbListingId]; exact hpe⟩
      rcases hfind2 : (prev.map (genUpdate fid query now1)).find?
          (fun item => item.fbListingId == fid) with _ | e2
      · rw [hfind2] at hsome
        simp at hsome
      · simp only [hfind2]
        rw [List.map_map]
        exact List.map_congr_left (fun x _ => genUpdate_idem fid query now1 now2 x)
  · -- the query-finished update is idempotent
    intro prev fid idx failedArg now1 now2
    unfold onDebugEbayQueryFinished
    rw [List.map_map]
    exact List.map_congr_left (fun x _ => finUpdate_idem fid failedArg now1 now2 x)
  · -- start: either keeps the list or appends
    intro prev fid idx title now
    unfold onDebugEbayQueryStart
    rcases hfind : prev.find? (fun item => item.fbListingId == fid) with _ | e
    · simp only [hfind]
      exact listTsPreserved_append prev _
    · simp only [hfind]
      exact listTsPreserved_refl prev
  · -- generated: appends or maps a timestamp-preserving update
    intro prev fid idx title query now
    unfold onDebugEbayQueryGenerated
    rcases hfind : prev.find? (fun item => item.fbListingId == fid) with _ | e
    · simp only [hfind]
      exact listTsPreserved_append prev _
    · simp only [hfind]
      exact listTsPreserved_map _ (tsPreserved_genUpdate fid query now) prev
  · -- finished: maps a timestamp-preserving update
    intro prev fid idx failedArg now
    exact listTsPreserved_map _ (tsPreserved_finUpdate fid failedArg now) prev
  · -- product recon: appends or maps a timestamp-preserving update
    intro prev fid idx recon now
    unfold onDebugProductRecon
    rcases hfind : prev.find? (fun item => item.fbListingId == fid) with _ | e
    · simp only [hfind]
      exact listTsPreserved_append prev _
    · simp only [hfind]
      exact listTsPreserved_map _ (tsPreserved_reconUpdate fid recon) prev
  · -- the noCompReason attachment: maps a timestamp-preserving update
    intro prev fid reason now
    exact listTsPreserved_map _ (tsPreserved_noCompUpdate fid reason now) prev

theorem c8_witness :
    onDebugEbayQueryGenerated "id1" 0 (.str "t") (.str "q") 5
        (onDebugEbayQueryGenerated "id1" 0 (.str "t") (.str "q") 3 [])
      = onDebugEbayQueryGenerated "id1" 0 (.str "t") (.str "q") 3 [] :=
  c8_upsert_idempotent_monotonic.1 [] "id1" 0 (.str "t") (.str "q") 3 5

/-! ### Claims C5 and C9: decode errors and the trailing fragment -/

/-- Code points of an ASCII string (used only for ASCII test inputs, where
code points and UTF-8 bytes coincide). -/
def strBytes (s : String) : List Nat := s.data.map (·.toNat)

/-- Claim C5 (amended): a payload on which `dispatchSSEEvent` throws — an
invalid-JSON payload — is fatal: the read loop is aborted exactly when
some `"data: "` payload of the stream fails to parse.  But a payload that
is valid JSON yet lacks a recognizable `type` field is NOT a decode error:
its dispatch falls through every branch, leaving the session state
unchanged, and the loop continues. -/
theorem c5_amended_invalid_json_fatal_unknown_type_skipped :
    (∀ (parses : List Nat → Bool) (chunks : List (List Nat)),
      (parseSSEStream parses chunks).aborted = true ↔
        ∃ p ∈ streamPayloads chunks.flatten, parses p = false) ∧
    (∀ (now : Int) (s : SessionState) (v : JValue) (t : String),
      typeField v = some t → t ∉ recognizedEventKinds →
        dispatchSSEEvent now s v = s) := by
  constructor
  · intro parses chunks
    rw [(parseSSEStream_denot parses chunks).2]
    unfold sseDenot
    rw [dispatchLines_aborted_iff]
    unfold streamPayloads
    constructor
    · rintro ⟨l, hl, hd, hp⟩
      exact ⟨payloadOf l, List.mem_map_of_mem _ (List.mem_filter.mpr ⟨hl, hd⟩), hp⟩
    · rintro ⟨p, hp, hfail⟩
      rw [List.mem_map] at hp
      obtain ⟨l, hlf, rfl⟩ := hp
      rw [List.mem_filter] at hlf
      exact ⟨l, hlf.1, hlf.2, hfail⟩
  · intro now s v t hty hmem
    simp only [recognizedEventKinds, List.mem_cons, List.not_mem_nil, or_false,
      not_or] at hmem
    obtain ⟨h1, h2, h3, h4, h5, h6, h7, h8, h9, h10, h11, h12, h13, h14, h15, h16,
      h17, h18, h19⟩ := hmem
    simp [dispatchSSEEvent, hty, h1, h2, h3, h4, h5, h6, h7, h8, h9, h10, h11, h12,
      h13, h14, h15, h16, h17, h18, h19]

def c5Chunk : List Nat :=
  strBytes "data: \x7b\"type\":\"bogus\"\x7d\ndata: \x7b\"type\":\"progress\",\"scannedCount\":3\x7d\n"

/-- Counterexample to claim C5: a non-final line whose payload is valid
JSON but lacks a recognizable `type` field is NOT fatal.  With both
payloads parsing (`parses := fun _ => true` — both are valid JSON), the
run is not aborted, both lines are dispatched in order (the loop continues
past the unrecognized one), and the decoded unrecognized event leaves the
session state untouched instead of raising a decode error. -/
theorem c5_counterexample :
    (parseSSEStream (fun _ => true) [c5Chunk]).aborted = false ∧
    (parseSSEStream (fun _ => true) [c5Chunk]).events
      = [strBytes "\x7b\"type\":\"bogus\"\x7d",
         strBytes "\x7b\"type\":\"progress\",\"scannedCount\":3\x7d"] ∧
    dispatchSSEEvent 0 initialSearchState (jo [("type", .str "bogus")])
      = initialSearchState := by
  refine ⟨by decide, by decide, by decide⟩

theorem c5_amended_witness :
    (typeField (jo [("type", JValue.str "bogus")]) = some "bogus" ∧
      "bogus" ∉ recognizedEventKinds) ∧
    dispatchSSEEvent 0 initialSearchState (jo [("type", JValue.str "bogus")])
      = initialSearchState :=
  ⟨⟨by decide, by decide⟩,
   c5_amended_invalid_json_fatal_unknown_type_skipped.2 0 initialSearchState
     (jo [("type", JValue.str "bogus")]) "bogus" (by decide) (by decide)⟩

def c9Chunk : List Nat := strBytes "data: \x7b"

/-- Claim C9 (code bug), evaluated on the failing input: a stream whose
final bytes are the unterminated fragment `data: {` with no trailing
newline.  The fragment IS yielded as a last, possibly-incomplete line —
its payload `{` is passed to `dispatchSSEEvent` (first conjunct) — but a
parse failure on it (`parses := fun _ => false`: `{` is not valid JSON)
ABORTS the stream (second conjunct) instead of being ignored: because
`buffer = done ? "" : lines.pop()` clears the buffer before the dispatch
loop, every element of the final split, the trailing fragment included,
runs through the fatal path, and the tolerant
`if (buffer.startsWith("data: ")) try ... catch ignore` block guarding the
"trailing partial line ... ignore" comment can never execute. -/
theorem c9_trailing_fragment_parse_error_is_fatal :
    (parseSSEStream (fun _ => false) [c9Chunk]).events = [strBytes "\x7b"] ∧
    (parseSSEStream (fun _ => false) [c9Chunk]).aborted = true := by
  refine ⟨by decide, by decide⟩

/-! ### Claim C7: the combined display ordering -/

theorem partitionDisplay_snd (urls : List String) : ∀ (ds : List Listing) (i : Nat),
    (partitionDisplay urls ds i).2
      = ds.filter (fun l => !(getListingFilterInfo l urls).isFiltered) := by
  intro ds
  induction ds with
  | nil => intro i; rfl
  | cons l rest ih =>
      intro i
      simp only [partitionDisplay]
      by_cases h : (getListingFilterInfo l urls).isFiltered
      · simp [h, ih (i + 1)]
      · simp [h, ih (i + 1)]

theorem partitionDisplay_mem (urls : List String) : ∀ (ds : List Listing) (i : Nat)
    (e : FilteredEntry), e ∈ (partitionDisplay urls ds i).1 →
      i ≤ e.idx ∧ ds[e.idx - i]? = some e.listing ∧
      (getListingFilterInfo e.listing urls).isFiltered = true ∧
      e.isPostEval = (getListingFilterInfo e.listing urls).isPostEval := by
  intro ds
  induction ds with
  | nil => intro i e h; simp [partitionDisplay] at h
  | cons l rest ih =>
      intro i e h
      simp only [partitionDisplay] at h
      by_cases hf : (getListingFilterInfo l urls).isFiltered
      · rw [if_pos hf] at h
        rcases List.mem_cons.mp h with rfl | hmem
        · exact ⟨le_refl i, by simp, hf, rfl⟩
        · obtain ⟨hle, hget, hfil, hpe⟩ := ih (i + 1) e hmem
          refine ⟨le_trans (Nat.le_succ i) hle, ?_, hfil, hpe⟩
          have hidx : e.idx - i = (e.idx - (i + 1)) + 1 := by omega
          rw [hidx]
          simpa using hget
      · rw [if_neg hf] at h
        obtain ⟨hle, hget, hfil, hpe⟩ := ih (i + 1) e h
        refine ⟨le_trans (Nat.le_succ i) hle, ?_, hfil, hpe⟩
        have hidx : e.idx - i = (e.idx - (i + 1)) + 1 := by omega
        rw [hidx]
        simpa using hget

/-- The conjunction of ordering properties claimed for
`sortedDisplayListings`:  evaluated non-filtered listings come first in
their natural order; the tail is a permutation of the filtered entries;
each sorted entry carries its original index, is genuinely filtered, and
its post-eval flag matches `getListingFilterInfo`; the tail is sorted by
descending recency key (most-recently-filtered first); and no post-eval
entry follows a pre-eval entry (the two recency orders never
interleave). -/
def SortSpec (ds : List Listing) (fo : List FilteredOutListingRow) : Prop :=
  sortedDisplayListings ds fo
      = ds.filter (fun l => !(getListingFilterInfo l (filteredOutUrlsOf fo)).isFiltered)
        ++ (sortedFilteredEntries ds fo).map (·.listing) ∧
  (sortedFilteredEntries ds fo).Perm
      (partitionDisplay (filteredOutUrlsOf fo) ds 0).1 ∧
  (∀ e ∈ sortedFilteredEntries ds fo,
      ds[e.idx]? = some e.listing ∧
      (getListingFilterInfo e.listing (filteredOutUrlsOf fo)).isFiltered = true ∧
      e.isPostEval = (getListingFilterInfo e.listing (filteredOutUrlsOf fo)).isPostEval) ∧
  List.Pairwise recencyGE (sortedFilteredEntries ds fo) ∧
  postBeforePre (sortedFilteredEntries ds fo)

/-- Claim C7 (amended): the combined display ordering specification holds
provided the display list has at most `FILTERED_RECENCY_OFFSET` entries,
so that no original index reaches the offset.  (Beyond that bound the
offset no longer separates the two classes — see the counterexample.) -/
theorem c7_amended_sort_spec (ds : List Listing) (fo : List FilteredOutListingRow)
    (h : ds.length ≤ FILTERED_RECENCY_OFFSET) : SortSpec ds fo := by
  have hperm := List.perm_insertionSort recencyGE
    (partitionDisplay (filteredOutUrlsOf fo) ds 0).1
  have hsorted : List.Pairwise recencyGE (sortedFilteredEntries ds fo) :=
    List.sorted_insertionSort recencyGE _
  have hmem : ∀ e ∈ sortedFilteredEntries ds fo,
      ds[e.idx]? = some e.listing ∧
      (getListingFilterInfo e.listing (filteredOutUrlsOf fo)).isFiltered = true ∧
      e.isPostEval = (getListingFilterInfo e.listing (filteredOutUrlsOf fo)).isPostEval := by
    intro e he
    have he' : e ∈ (partitionDisplay (filteredOutUrlsOf fo) ds 0).1 := hperm.subset he
    obtain ⟨-, hget, hfil, hpe⟩ := partitionDisplay_mem _ ds 0 e he'
    rw [Nat.sub_zero] at hget
    exact ⟨hget, hfil, hpe⟩
  have hbound : ∀ e ∈ sortedFilteredEntries ds fo, e.idx < FILTERED_RECENCY_OFFSET := by
    intro e he
    have hget := (hmem e he).1
    have hlt : e.idx < ds.length := by
      by_contra hge
      rw [List.getElem?_eq_none (by omega)] at hget
      exact Option.noConfusion hget
    omega
  refine ⟨?_, hperm, hmem, hsorted, ?_⟩
  · unfold sortedDisplayListings
    rw [partitionDisplay_snd]
  · refine hsorted.imp_of_mem ?_
    intro a b ha hb hr hbp
    cases hap : a.isPostEval with
    | true => rfl
    | false =>
        exfalso
        have hba := hbound a ha
        unfold recencyGE filteredRecency at hr
        rw [hap, hbp] at hr
        simp at hr
        omega

def c7wOk : Listing := ⟨"ok", 1, none, "", "ok", some 50, none, none, none⟩

def c7wPost : Listing := ⟨"post", 1, none, "", "post", none, none, none, some "no comps"⟩

def c7wPre : Listing := ⟨"pre", 1, none, "", "pre", none, none, none, none⟩

def c7wds : List Listing := [c7wOk, c7wPost, c7wPre]

def c7wfo : List FilteredOutListingRow := [⟨"pre", 1, "", "pre", none, none⟩]

theorem c7_amended_witness :
    c7wds.length ≤ FILTERED_RECENCY_OFFSET ∧ SortSpec c7wds c7wfo :=
  ⟨by decide, c7_amended_sort_spec c7wds c7wfo (by decide)⟩

def c7ds : List Listing :=
  c7wPost :: (List.replicate (FILTERED_RECENCY_OFFSET + 1) c7wOk ++ [c7wPre])

theorem partitionDisplay_cons (urls : List String) (l : Listing) (rest : List Listing)
    (i : Nat) :
    partitionDisplay urls (l :: rest) i =
      (let r := partitionDisplay urls rest (i + 1)
       let info := getListingFilterInfo l urls
       if info.isFiltered then (⟨l, i, info.isPostEval⟩ :: r.1, r.2)
       else (r.1, l :: r.2)) := rfl

theorem c7_partition_replicate : ∀ (n i : Nat),
    partitionDisplay (filteredOutUrlsOf c7wfo) (List.replicate n c7wOk ++ [c7wPre]) i
      = ([⟨c7wPre, i + n, false⟩], List.replicate n c7wOk) := by
  intro n
  induction n with
  | zero =>
      intro i
      have hpre : getListingFilterInfo c7wPre (filteredOutUrlsOf c7wfo)
          = ⟨true, false⟩ := by decide
      simp [partitionDisplay, hpre]
  | succ n ih =>
      intro i
      rw [List.replicate_succ, List.cons_append, partitionDisplay_cons, ih (i + 1)]
      have hok : getListingFilterInfo c7wOk (filteredOutUrlsOf c7wfo)
          = ⟨false, false⟩ := by decide
      have h1 : i + 1 + n = i + (n + 1) := by omega
      simp [hok, h1, List.replicate_succ]

/-- Counterexample to claim C7: with 1 000 002 or more display rows the
offset no longer separates the two recency orders.  Here a pre-eval
filtered listing sits at original index `FILTERED_RECENCY_OFFSET + 2`
(recency 1 000 002) while a post-eval filtered listing sits at index 0
(recency 0 + 1 000 000), so the PRE-eval listing sorts ABOVE the post-eval
one — "every post-evaluation-filtered listing sorts above every
pre-evaluation-filtered listing" fails, and the two recency orders
interleave. -/
theorem c7_counterexample :
    sortedFilteredEntries c7ds c7wfo
      = [⟨c7wPre, FILTERED_RECENCY_OFFSET + 2, false⟩, ⟨c7wPost, 0, true⟩] ∧
    ¬ postBeforePre (sortedFilteredEntries c7ds c7wfo) ∧
    sortedDisplayListings c7ds c7wfo
      = List.replicate (FILTERED_RECENCY_OFFSET + 1) c7wOk ++ [c7wPre, c7wPost] := by
  have hpost : getListingFilterInfo c7wPost (filteredOutUrlsOf c7wfo)
      = ⟨true, true⟩ := by decide
  have hpart : partitionDisplay (filteredOutUrlsOf c7wfo) c7ds 0
      = ([⟨c7wPost, 0, true⟩, ⟨c7wPre, FILTERED_RECENCY_OFFSET + 2, false⟩],
         List.replicate (FILTERED_RECENCY_OFFSET + 1) c7wOk) := by
    unfold c7ds
    rw [partitionDisplay_cons, c7_partition_replicate (FILTERED_RECENCY_OFFSET + 1) 1]
    have h12 : 1 + (FILTERED_RECENCY_OFFSET + 1) = FILTERED_RECENCY_OFFSET + 2 := by omega
    simp [hpost, h12]
  have hsort : sortedFilteredEntries c7ds c7wfo
      = [⟨c7wPre, FILTERED_RECENCY_OFFSET + 2, false⟩, ⟨c7wPost, 0, true⟩] := by
    unfold sortedFilteredEntries
    rw [hpart]
    decide
  refine ⟨hsort, ?_, ?_⟩
  · rw [hsort]
    intro hpb
    unfold postBeforePre at hpb
    rcases List.pairwise_cons.mp hpb with ⟨hhead, -⟩
    have hcontra := hhead _ (List.mem_singleton.mpr rfl) rfl
    exact absurd hcontra (by decide)
  · unfold sortedDisplayListings
    rw [hsort, hpart]
    rfl
